import Mathlib

/-!
Verification of the CadQuery assembly/shape export layer
(`cadquery/occ_impl/exporters/assembly.py` and `cadquery/occ_impl/exporters/png.py`).

The Python functions are shallowly embedded: dictionaries become association
lists of `String × OptVal`, Python exceptions become `Except PyErr`, the calls
into the external OCCT/VTK libraries become entries of an explicit effect
trace, and the exact decimal literals of the source become rationals.
-/

/-- Python exceptions that the embedded code can raise. -/
inductive PyErr where
  | typeError
  | indexError
  | runtimeError
deriving DecidableEq

/-- A loosely-typed Python value, as stored in an options dictionary. -/
inductive OptVal where
  | int (n : Int)
  | bool (b : Bool)
  | rgb (r g b : ℚ)
  | pos (x y z : ℚ)
  | pair (lo hi : ℚ)
  | pynone
deriving DecidableEq

/-- A Python dict with string keys, embedded as an association list. -/
abbrev PyDict := List (String × OptVal)

/-- Python `k in d` for a dict. -/
def containsKey (d : PyDict) (k : String) : Bool :=
  d.any (fun kv => kv.1 == k)

/-- Python `d[k]`; only consulted under a `containsKey` guard in the source. -/
def getKey (d : PyDict) (k : String) : OptVal :=
  ((d.find? (fun kv => kv.1 == k)).map Prod.snd).getD OptVal.pynone

/-- A keyword-argument value for the STEP exporter; Python truthiness matters
for `write_pcurves` (`if "write_pcurves" in kwargs and not kwargs["write_pcurves"]`). -/
inductive KwVal where
  | int (n : Int)
  | bool (b : Bool)
  | float (q : ℚ)
  | pynone
deriving DecidableEq

/-- Python truthiness of a keyword-argument value. -/
def KwVal.truthy : KwVal → Bool
  | KwVal.int n => n != 0
  | KwVal.bool b => b
  | KwVal.float q => q != 0
  | KwVal.pynone => false

/-- Python `str.split(sep)` for a one-character separator, on the character
list of the string: `"a.b".split(".") == ["a", "b"]`, `"".split(".") == [""]`. -/
def pySplit (sep : Char) : List Char → List (List Char)
  | [] => [[]]
  | c :: cs =>
    if c = sep then
      [] :: pySplit sep cs
    else
      match pySplit sep cs with
      | [] => [[c]]
      | p :: ps => (c :: p) :: ps

/-- Python `xs[-1]` on a list known to be non-empty (`d` is a dead default). -/
def lastOr {α : Type} (d : α) : List α → α
  | [] => d
  | [a] => a
  | _ :: b :: bs => lastOr d (b :: bs)

/-- Index of the last occurrence of `c`, as used by Python `str.rfind`. -/
def rfindIdx (c : Char) : List Char → Option Nat
  | [] => none
  | x :: xs =>
    match rfindIdx c xs with
    | some i => some (i + 1)
    | none => if x = c then some 0 else none

/-- CPython `os.path.splitext` on a filename (no directory separators):
split at the last dot, unless every character before that dot is itself a
dot (leading dots do not start an extension). -/
def osPathSplitext (p : List Char) : List Char × List Char :=
  match rfindIdx '.' p with
  | none => (p, [])
  | some i =>
    if (p.take i).all (fun ch => ch = '.') then (p, [])
    else (p.take i, p.drop i)

/-- CPython posix `os.path.split`: split after the last slash; the head is
stripped of trailing slashes unless it consists only of slashes. -/
def osPathSplit (p : List Char) : List Char × List Char :=
  match rfindIdx '/' p with
  | none => ([], p)
  | some i =>
    let head := p.take (i + 1)
    let tail := p.drop (i + 1)
    let stripped := (head.reverse.dropWhile (fun ch => ch = '/')).reverse
    (if stripped = [] then head else stripped, tail)

/-- The character list of the literal `"gltf"` compared against `path_parts[-1]`. -/
def gltfChars : List Char := ['g', 'l', 't', 'f']

/-- The binary/ASCII flag `exportGLTF` hands to `RWGltf_CafWriter`: an explicit
flag is respected; otherwise `binary = True` unless `path.split(".")[-1] == "gltf"`
(the source also checks `len(path_parts) > 0`, which is always true). -/
def gltfEffectiveBinary (binary : Option Bool) (path : List Char) : Bool :=
  match binary with
  | some b => b
  | none =>
    if 0 < (pySplit '.' path).length ∧ lastOr [] (pySplit '.' path) = gltfChars then false
    else true

/-- A 3-vector of exact rationals. -/
structure Vec3 where
  x : ℚ
  y : ℚ
  z : ℚ
deriving DecidableEq

/-- Componentwise vector addition. -/
def Vec3.add (u v : Vec3) : Vec3 := ⟨u.x + v.x, u.y + v.y, u.z + v.z⟩

/-- A 3x3 rational matrix (row major). -/
structure Mat3 where
  a11 : ℚ
  a12 : ℚ
  a13 : ℚ
  a21 : ℚ
  a22 : ℚ
  a23 : ℚ
  a31 : ℚ
  a32 : ℚ
  a33 : ℚ
deriving DecidableEq

/-- Matrix product. -/
def Mat3.mul (A B : Mat3) : Mat3 :=
  ⟨A.a11 * B.a11 + A.a12 * B.a21 + A.a13 * B.a31,
   A.a11 * B.a12 + A.a12 * B.a22 + A.a13 * B.a32,
   A.a11 * B.a13 + A.a12 * B.a23 + A.a13 * B.a33,
   A.a21 * B.a11 + A.a22 * B.a21 + A.a23 * B.a31,
   A.a21 * B.a12 + A.a22 * B.a22 + A.a23 * B.a32,
   A.a21 * B.a13 + A.a22 * B.a23 + A.a23 * B.a33,
   A.a31 * B.a11 + A.a32 * B.a21 + A.a33 * B.a31,
   A.a31 * B.a12 + A.a32 * B.a22 + A.a33 * B.a32,
   A.a31 * B.a13 + A.a32 * B.a23 + A.a33 * B.a33⟩

/-- Matrix applied to a vector. -/
def Mat3.apply (A : Mat3) (v : Vec3) : Vec3 :=
  ⟨A.a11 * v.x + A.a12 * v.y + A.a13 * v.z,
   A.a21 * v.x + A.a22 * v.y + A.a23 * v.z,
   A.a31 * v.x + A.a32 * v.y + A.a33 * v.z⟩

/-- A rigid placement: rotation part and translation part, the data carried
by a CadQuery `Location`. -/
structure Location where
  rot : Mat3
  trans : Vec3
deriving DecidableEq

/-- Composition of placements, the meaning of `loc * other` on locations. -/
def Location.mul (L M : Location) : Location :=
  ⟨L.rot.mul M.rot, (L.rot.apply M.trans).add L.trans⟩

/-- Rotation about the X axis with the given cosine and sine. -/
def rotX (c s : ℚ) : Mat3 := ⟨1, 0, 0, 0, c, -s, 0, s, c⟩

/-- The transform `Location((0, 0, 0), (1, 0, 0), -90)` applied by `exportGLTF`:
rotation about the X axis by -90 degrees (cosine 0, sine -1), zero translation. -/
def gltfAxisFix : Location := ⟨rotX 0 (-1), ⟨0, 0, 0⟩⟩

/-- The identity placement. -/
def idLocation : Location := ⟨⟨1, 0, 0, 0, 1, 0, 0, 0, 1⟩, ⟨0, 0, 0⟩⟩

/-- The root-transform handling of `exportGLTF`. Inputs model the outcome of
the two external calls (`toCAF` document conversion and `writer.Perform`),
each of which may raise. The source saves `orig_loc = assy.loc`, multiplies
`assy.loc` by `gltfAxisFix`, converts, writes, and only then restores
`assy.loc = orig_loc` — there is no `try`/`finally`, so a raise propagates
with the mutated location left in place. Returns the final `assy.loc`, the
propagated result, and the binary flag handed to the writer. -/
def exportGLTF (loc0 : Location) (path : List Char) (binary : Option Bool)
    (toCAFOutcome : Except PyErr Unit) (performOutcome : Except PyErr Bool) :
    Location × Except PyErr Bool × Bool :=
  let b := gltfEffectiveBinary binary path
  let orig_loc := loc0
  let loc1 := loc0.mul gltfAxisFix
  match toCAFOutcome with
  | Except.error e => (loc1, Except.error e, b)
  | Except.ok _ =>
    match performOutcome with
    | Except.error e => (loc1, Except.error e, b)
    | Except.ok result => (orig_loc, Except.ok result, b)

/-- The keyword arguments accepted by `exportAssembly` (a key is present in
`kwargs` iff the caller passed it). -/
structure StepKwargs where
  write_pcurves : Option KwVal := none
  precision_mode : Option Int := none
  fuzzy_tol : Option ℚ := none
  glue : Option Bool := none

/-- One configuration or action call issued by `exportAssembly` on the STEP
writer or on the `Interface_Static` global settings. -/
inductive StepWriterCall where
  | setColorMode (b : Bool)
  | setLayerMode (b : Bool)
  | setNameMode (b : Bool)
  | interfaceSetIVal (key : String) (v : Int)
  | transfer (modelType : String)
  | write (path : String)
deriving DecidableEq

/-- The sequence of writer-configuration calls made by `exportAssembly`:
`pcurves` is 1 unless `write_pcurves` was passed and is falsy, and
`precision_mode` defaults to 0; the color, layer and name modes and the
model type are set unconditionally. (The `mode`, `fuzzy_tol` and `glue`
arguments only select how the document is built, before the writer runs.) -/
def exportAssemblySettings (kwargs : StepKwargs) (path : String) : List StepWriterCall :=
  let pcurves : Int :=
    match kwargs.write_pcurves with
    | some v => if v.truthy then 1 else 0
    | none => 1
  let precision_mode : Int := kwargs.precision_mode.getD 0
  [StepWriterCall.setColorMode true,
   StepWriterCall.setLayerMode true,
   StepWriterCall.setNameMode true,
   StepWriterCall.interfaceSetIVal "write.surfacecurve.mode" pcurves,
   StepWriterCall.interfaceSetIVal "write.precision.mode" precision_mode,
   StepWriterCall.transfer "STEPControl_AsIs",
   StepWriterCall.write path]

/-- The value handed to `Interface_Static.SetIVal_s` for a given key, if any. -/
def interfaceIVal (calls : List StepWriterCall) (key : String) : Option Int :=
  (calls.filterMap fun c =>
    match c with
    | StepWriterCall.interfaceSetIVal k v => if k == key then some v else none
    | _ => none).head?

/-- The writer calls that are not `Interface_Static` key/value settings. -/
def nonIValCalls (calls : List StepWriterCall) : List StepWriterCall :=
  calls.filter fun c =>
    match c with
    | StepWriterCall.interfaceSetIVal _ _ => false
    | _ => true

/-- An observable call into the external OCCT/VTK libraries. -/
inductive Effect where
  | toCAF
  | defineFormat (ext : List Char)
  | setRequestedFolder (folder : List Char)
  | setRequestedName (nm : List Char)
  | saveAs (path : List Char)
  | tessellate
  | setOffScreenOnlyMode (v : Int)
  | setUseMesaClasses (v : Int)
  | setSize (w h : OptVal)
  | setBackground (c : OptVal)
  | render
  | setCamera (pos : OptVal)
  | writePNG (path : String)
deriving DecidableEq

/-- `exportCAF`: split the path, split the filename's extension, and strip the
leading dot with `ext = ext[1:] if ext[0] == "." else ext` — on a filename with
no extension `ext[0]` raises `IndexError` before `toCAF` runs or anything is
written; otherwise the document is converted, the stripped extension is
registered via `DefineFormat` and the document is saved. `saveOk` models the
`PCDM_SS_OK` comparison of the external `SaveAs` status. -/
def exportCAF (path : List Char) (saveOk : Bool) : Except PyErr (List Effect × Bool) :=
  match (osPathSplitext (osPathSplit path).2).2 with
  | [] => Except.error PyErr.indexError
  | c :: rest =>
    Except.ok
      ([Effect.toCAF,
        Effect.defineFormat (if c = '.' then rest else c :: rest),
        Effect.setRequestedFolder (osPathSplit path).1,
        Effect.setRequestedName (osPathSplitext (osPathSplit path).2).1,
        Effect.saveAs path],
       saveOk)

/-- An axis-aligned bounding box, as produced by `BoundingBox()`. -/
structure BBox where
  xmin : ℚ
  xmax : ℚ
  ymin : ℚ
  ymax : ℚ
  zmin : ℚ
  zmax : ℚ
deriving DecidableEq

/-- The heuristic default camera position: each bounding-box extent scaled by 2. -/
def bboxCam (bbox : BBox) : OptVal :=
  OptVal.pos ((bbox.xmax - bbox.xmin) * 2) ((bbox.ymax - bbox.ymin) * 2)
    ((bbox.zmax - bbox.zmin) * 2)

/-- An assembly color; `toTuple()` yields its RGBA components. -/
structure Color where
  r : ℚ
  g : ℚ
  b : ℚ
  a : ℚ
deriving DecidableEq

/-- `col.toTuple()` as the RGBA list the source slices with `color[:3]` and `color[3]`. -/
def Color.toTuple (c : Color) : List ℚ := [c.r, c.g, c.b, c.a]

/-- One leaf shape met while traversing the assembly: its location's
translation and rotation (`loc.toTuple()`) and its optional color. -/
structure Leaf where
  translation : ℚ × ℚ × ℚ
  rotation : ℚ × ℚ × ℚ
  col : Option Color

/-- The VTK face actor built for a leaf. `SetOrientation` receives the
rotation converted from radians to degrees; the conversion (an injective
real-valued rescaling) is kept in radians here since no claim depends on it. -/
structure FaceActor where
  position : ℚ × ℚ × ℚ
  orientationRad : ℚ × ℚ × ℚ
  color : List ℚ
  opacity : ℚ
deriving DecidableEq

/-- The VTK edge actor built for a leaf. -/
structure EdgeActor where
  position : ℚ × ℚ × ℚ
  orientationRad : ℚ × ℚ × ℚ
  color : List ℚ
  lineWidth : ℚ
deriving DecidableEq

/-- The face actor for a leaf: `color = col.toTuple() if col else (0.1, 0.1, 0.1, 1.0)`,
then `SetColor(*color[:3])` and `SetOpacity(color[3])`. -/
def faceActorOf (l : Leaf) : FaceActor :=
  let color : List ℚ :=
    match l.col with
    | some c => c.toTuple
    | none => [1/10, 1/10, 1/10, 1]
  { position := l.translation
    orientationRad := l.rotation
    color := color.take 3
    opacity := color.getD 3 0 }

/-- The edge actor for a leaf: fixed white color `(1.0, 1.0, 1.0)`, line width 1. -/
def edgeActorOf (l : Leaf) : EdgeActor :=
  { position := l.translation
    orientationRad := l.rotation
    color := [1, 1, 1]
    lineWidth := 1 }

/-- The view options selected by the assembly-level `exportPNG`. -/
structure AssyPngOpts where
  width : OptVal
  height : OptVal
  camera_position : OptVal
  view_up_direction : OptVal
  focal_point : OptVal
  parallel_projection : OptVal
  background_color : OptVal
  clipping_range : OptVal
deriving DecidableEq

/-- The view options selected by the shape-level `exportPNG` (no clipping range). -/
structure ShapePngOpts where
  width : OptVal
  height : OptVal
  camera_position : OptVal
  view_up_direction : OptVal
  focal_point : OptVal
  parallel_projection : OptVal
  background_color : OptVal
deriving DecidableEq

/-- The process-wide `vtkGraphicsFactory` backend configuration. -/
structure GraphicsFlags where
  offScreenOnlyMode : Int
  useMesaClasses : Int
deriving DecidableEq

namespace assembly

/-- The `else` branch of the assembly-level option handling (`opts` falsy):
width 800, height 600, parallel projection off, background `(0.8, 0.8, 0.8)`. -/
def pngDefaults (cam : OptVal) : AssyPngOpts :=
  { width := OptVal.int 800
    height := OptVal.int 600
    camera_position := cam
    view_up_direction := OptVal.pos 0 0 1
    focal_point := OptVal.pos 0 0 0
    parallel_projection := OptVal.bool false
    background_color := OptVal.rgb (4/5) (4/5) (4/5)
    clipping_range := OptVal.pynone }

/-- Option selection of the assembly-level `exportPNG`: the camera default is
recomputed from the bounding box when `not opts or "camera_position" not in opts`;
then `if opts:` (a non-empty dict) selects per-key values with defaults
width 800, height 600, parallel projection `True`, background `(0.5, 0.5, 0.5)`,
while `opts=None` or an empty dict takes the `pngDefaults` branch. -/
def pngOptions (opts : Option PyDict) (bbox : BBox) : AssyPngOpts :=
  let camDefault : OptVal :=
    match opts with
    | none => bboxCam bbox
    | some d =>
      if d.isEmpty || !(containsKey d "camera_position") then bboxCam bbox
      else OptVal.pos 20 20 20
  match opts with
  | none => pngDefaults camDefault
  | some d =>
    if !d.isEmpty then
      { width := if containsKey d "width" then getKey d "width" else OptVal.int 800
        height := if containsKey d "height" then getKey d "height" else OptVal.int 600
        camera_position :=
          if containsKey d "camera_position" then getKey d "camera_position" else camDefault
        view_up_direction :=
          if containsKey d "view_up_direction" then getKey d "view_up_direction"
          else OptVal.pos 0 0 1
        focal_point :=
          if containsKey d "focal_point" then getKey d "focal_point" else OptVal.pos 0 0 0
        parallel_projection :=
          if containsKey d "parallel_projection" then getKey d "parallel_projection"
          else OptVal.bool true
        background_color :=
          if containsKey d "background_color" then getKey d "background_color"
          else OptVal.rgb (1/2) (1/2) (1/2)
        clipping_range :=
          if containsKey d "clipping_range" then getKey d "clipping_range" else OptVal.pynone }
    else pngDefaults camDefault

/-- An execution of the assembly-level `exportPNG`: the actors built while
traversing the assembly, the selected view options, the final global
graphics flags, and the trace of external calls (tessellation of every leaf,
then the unconditional backend-flag writes, window sizing, background,
render, camera setup, PNG write). -/
structure Run where
  faceActors : List FaceActor
  edgeActors : List EdgeActor
  view : AssyPngOpts
  flags : GraphicsFlags
  effects : List Effect

/-- The assembly-level `exportPNG`. It never raises; the backend flags are
overwritten with 1/1 regardless of their prior values and never written again. -/
def exportPNG (leaves : List Leaf) (bbox : BBox) (path : String)
    (opts : Option PyDict) (flags0 : GraphicsFlags) : Run :=
  let view := pngOptions opts bbox
  { faceActors := leaves.map faceActorOf
    edgeActors := leaves.map edgeActorOf
    view := view
    flags := { flags0 with offScreenOnlyMode := 1, useMesaClasses := 1 }
    effects := (leaves.map fun _ => Effect.tessellate) ++
      [Effect.setOffScreenOnlyMode 1, Effect.setUseMesaClasses 1,
       Effect.setSize view.width view.height, Effect.setBackground view.background_color,
       Effect.render, Effect.setCamera view.camera_position, Effect.writePNG path] }

end assembly

namespace png

/-- Option selection of the shape-level `exportPNG`. The function's declared
default is `opts=None`, yet the camera-default test `"camera_position" not in opts`
runs before any truthiness check, so `opts=None` raises `TypeError` there.
For a dict, a non-empty `opts` selects per-key values with defaults
parallel projection `False` and background `(0.5, 0.5, 0.5)`; an empty dict
takes the `else` branch with the same two defaults. -/
def pngOptions (opts : Option PyDict) (bbox : BBox) : Except PyErr ShapePngOpts :=
  match opts with
  | none => Except.error PyErr.typeError
  | some d =>
    let camDefault : OptVal :=
      if !(containsKey d "camera_position") then bboxCam bbox else OptVal.pos 20 20 20
    Except.ok
      (if !d.isEmpty then
        { width := if containsKey d "width" then getKey d "width" else OptVal.int 800
          height := if containsKey d "height" then getKey d "height" else OptVal.int 600
          camera_position :=
            if containsKey d "camera_position" then getKey d "camera_position" else camDefault
          view_up_direction :=
            if containsKey d "view_up_direction" then getKey d "view_up_direction"
            else OptVal.pos 0 0 1
          focal_point :=
            if containsKey d "focal_point" then getKey d "focal_point" else OptVal.pos 0 0 0
          parallel_projection :=
            if containsKey d "parallel_projection" then getKey d "parallel_projection"
            else OptVal.bool false
          background_color :=
            if containsKey d "background_color" then getKey d "background_color"
            else OptVal.rgb (1/2) (1/2) (1/2) }
      else
        { width := OptVal.int 800
          height := OptVal.int 600
          camera_position := camDefault
          view_up_direction := OptVal.pos 0 0 1
          focal_point := OptVal.pos 0 0 0
          parallel_projection := OptVal.bool false
          background_color := OptVal.rgb (1/2) (1/2) (1/2) })

/-- An execution of the shape-level `exportPNG`: the selected view options (or
the raised exception), the final global graphics flags, and the external-call
trace. -/
structure Run where
  view : Except PyErr ShapePngOpts
  flags : GraphicsFlags
  effects : List Effect

/-- The shape-level `exportPNG`. With `opts=None` it raises before any external
call, leaving the backend flags untouched; otherwise the flags are overwritten
with 1/1 regardless of their prior values and never written again. -/
def exportPNG (bbox : BBox) (fileName : String) (opts : Option PyDict)
    (flags0 : GraphicsFlags) : Run :=
  match pngOptions opts bbox with
  | Except.error e => { view := Except.error e, flags := flags0, effects := [] }
  | Except.ok o =>
    { view := Except.ok o
      flags := { flags0 with offScreenOnlyMode := 1, useMesaClasses := 1 }
      effects := [Effect.setOffScreenOnlyMode 1, Effect.setUseMesaClasses 1,
        Effect.tessellate, Effect.setSize o.width o.height,
        Effect.setBackground o.background_color, Effect.render,
        Effect.setCamera o.camera_position, Effect.writePNG fileName] }

end png

/-- Every backend-flag write in a trace writes the value 1 (so no prior flag
value is ever written back). -/
def flagSetsAreOne (l : List Effect) : Bool :=
  l.all fun e =>
    match e with
    | Effect.setOffScreenOnlyMode v => v == 1
    | Effect.setUseMesaClasses v => v == 1
    | _ => true

/-- Both backend flags are written with 1 at some point before the render call. -/
def setsFlagsBeforeRender (l : List Effect) : Prop :=
  ∃ l₁ l₂ l₃ l₄,
    l = l₁ ++ Effect.setOffScreenOnlyMode 1 :: l₂ ++ Effect.setUseMesaClasses 1 :: l₃ ++
      Effect.render :: l₄

/-- `str.split` never returns an empty list of parts. -/
lemma pySplit_ne_nil (sep : Char) (l : List Char) : pySplit sep l ≠ [] := by
  cases l with
  | nil => simp [pySplit]
  | cons c cs =>
    simp only [pySplit]
    split
    · simp
    · cases h : pySplit sep cs with
      | nil => simp
      | cons p ps => simp

/-- `lastOr` skips a head element whenever the tail is non-empty. -/
lemma lastOr_cons_of_ne_nil {α : Type} (d a : α) (l : List α) (h : l ≠ []) :
    lastOr d (a :: l) = lastOr d l := by
  cases l with
  | nil => exact absurd rfl h
  | cons b bs => rfl

/-- Splitting a string that does not contain the separator yields the whole string. -/
lemma pySplit_of_not_mem (sep : Char) (l : List Char) (h : sep ∉ l) :
    pySplit sep l = [l] := by
  induction l with
  | nil => rfl
  | cons c cs ih =>
    have hc : ¬(c = sep) := by
      intro he
      exact h (he ▸ List.mem_cons_self c cs)
    have hcs : sep ∉ cs := fun hm => h (List.mem_cons_of_mem _ hm)
    simp only [pySplit, if_neg hc, ih hcs]

/-- A string containing the separator splits into at least two parts. -/
lemma two_le_pySplit_length (sep : Char) (l : List Char) (h : sep ∈ l) :
    2 ≤ (pySplit sep l).length := by
  induction l with
  | nil => cases h
  | cons c cs ih =>
    simp only [pySplit]
    by_cases hc : c = sep
    · rw [if_pos hc]
      have hne := pySplit_ne_nil sep cs
      cases hcs : pySplit sep cs with
      | nil => exact absurd hcs hne
      | cons p ps => simp
    · rw [if_neg hc]
      have hmem : sep ∈ cs := by
        rcases List.mem_cons.mp h with h1 | h2
        · exact absurd h1.symm hc
        · exact h2
      have h2 := ih hmem
      cases hcs : pySplit sep cs with
      | nil => rw [hcs] at h2; simp at h2
      | cons p ps =>
        rw [hcs] at h2
        simp only [List.length_cons] at h2 ⊢
        omega

/-- The last part of a split is unaffected by anything before a separator. -/
lemma lastOr_pySplit_append (sep : Char) (d : List Char) (q ys : List Char) :
    lastOr d (pySplit sep (q ++ sep :: ys)) = lastOr d (pySplit sep ys) := by
  induction q with
  | nil =>
    simp only [List.nil_append, pySplit, if_pos rfl]
    exact lastOr_cons_of_ne_nil d [] _ (pySplit_ne_nil sep ys)
  | cons c q' ih =>
    simp only [List.cons_append, pySplit]
    by_cases hc : c = sep
    · rw [if_pos hc]
      simp only [List.append_eq]
      rw [lastOr_cons_of_ne_nil d [] _ (pySplit_ne_nil sep (q' ++ sep :: ys))]
      exact ih
    · rw [if_neg hc]
      have h2 : 2 ≤ (pySplit sep (q' ++ sep :: ys)).length :=
        two_le_pySplit_length sep _ (by simp)
      cases hs : pySplit sep (q' ++ sep :: ys) with
      | nil => rw [hs] at h2; simp at h2
      | cons p ps =>
        rw [hs] at h2
        have hps : ps ≠ [] := by
          intro hh
          rw [hh] at h2
          simp at h2
        rw [lastOr_cons_of_ne_nil d (c :: p) ps hps]
        have hih := ih
        rw [hs, lastOr_cons_of_ne_nil d p ps hps] at hih
        exact hih

/-- If the last dot-separated part of `p` is a dot-free string `g`, then `p`
is `g` itself or ends in `'.' :: g`. -/
lemma eq_or_append_of_lastOr_pySplit (sep : Char) :
    ∀ (p g : List Char), lastOr [] (pySplit sep p) = g → sep ∉ g →
      p = g ∨ ∃ q, p = q ++ sep :: g := by
  intro p
  induction p with
  | nil =>
    intro g hlast _
    left
    exact hlast
  | cons c cs ih =>
    intro g hlast hg
    by_cases hc : c = sep
    · subst hc
      rw [pySplit, if_pos rfl,
        lastOr_cons_of_ne_nil [] [] _ (pySplit_ne_nil c cs)] at hlast
      rcases ih g hlast hg with h | ⟨q, hq⟩
      · right
        exact ⟨[], by rw [h]; rfl⟩
      · right
        exact ⟨c :: q, by rw [hq]; rfl⟩
    · have hne := pySplit_ne_nil sep cs
      cases hs : pySplit sep cs with
      | nil => exact absurd hs hne
      | cons p₀ ps =>
        rw [pySplit, if_neg hc, hs] at hlast
        cases hps : ps with
        | nil =>
          subst hps
          have hg' : c :: p₀ = g := hlast
          have hsep : sep ∉ cs := by
            intro hmem
            have h2 := two_le_pySplit_length sep cs hmem
            rw [hs] at h2
            simp at h2
          have hcs : pySplit sep cs = [cs] := pySplit_of_not_mem sep cs hsep
          rw [hs] at hcs
          have hpcs : p₀ = cs := by injection hcs
          left
          rw [← hg', hpcs]
        | cons b bs =>
          have hps' : ps ≠ [] := by rw [hps]; simp
          rw [lastOr_cons_of_ne_nil [] (c :: p₀) ps hps'] at hlast
          have hlast' : lastOr [] (pySplit sep cs) = g := by
            rw [hs, lastOr_cons_of_ne_nil [] p₀ ps hps']
            exact hlast
          rcases ih g hlast' hg with h | ⟨q, hq⟩
          · exfalso
            have hsep : sep ∉ cs := h ▸ hg
            have hcs := pySplit_of_not_mem sep cs hsep
            rw [hs] at hcs
            injection hcs with h1 h2
            exact hps' h2
          · right
            exact ⟨c :: q, by rw [hq]; rfl⟩

/-- Dropping up to the index found by `rfindIdx` lands on the sought character. -/
lemma rfindIdx_drop (c : Char) :
    ∀ (p : List Char) (i : Nat), rfindIdx c p = some i →
      p.drop i = c :: p.drop (i + 1) := by
  intro p
  induction p with
  | nil => intro i hr; simp [rfindIdx] at hr
  | cons x xs ih =>
    intro i hr
    simp only [rfindIdx] at hr
    cases hx : rfindIdx c xs with
    | some j =>
      rw [hx] at hr
      injection hr with hij
      subst hij
      simp only [List.drop_succ_cons]
      exact ih j hx
    | none =>
      rw [hx] at hr
      by_cases hxc : x = c
      · rw [if_pos hxc] at hr
        injection hr with hij
        subst hij
        simp [hxc]
      · rw [if_neg hxc] at hr
        cases hr

/-- A non-empty extension produced by `os.path.splitext` starts with a dot. -/
lemma osPathSplitext_snd_head (p : List Char) (c : Char) (rest : List Char)
    (h : (osPathSplitext p).2 = c :: rest) : c = '.' := by
  cases hr : rfindIdx '.' p with
  | none =>
    have hmain : osPathSplitext p = (p, []) := by
      unfold osPathSplitext
      rw [hr]
    rw [hmain] at h
    simp at h
  | some i =>
    have hmain : osPathSplitext p =
        if (p.take i).all (fun ch => ch = '.') then (p, []) else (p.take i, p.drop i) := by
      unfold osPathSplitext
      rw [hr]
    rw [hmain] at h
    split at h
    · simp at h
    · rw [rfindIdx_drop '.' p i hr] at h
      injection h with h1 h2
      exact h1.symm

/-- C1: the claim states that `exportGLTF` restores the assembly's root
transform on every exit path, including when document conversion or the glTF
writer raises. The source has no `try`/`finally`: evaluated at the failing
input (root transform the identity, `toCAF` raising), the root transform is
left multiplied by the -90-degree X rotation; the same holds when
`writer.Perform` raises, while both non-raising paths (successful and failing
write status) do restore it. -/
theorem exportGLTF_loc_after_exception :
  (exportGLTF idLocation ['p', 'a', 'r', 't', '.', 'g', 'l', 't', 'f'] none
      (Except.error PyErr.runtimeError) (Except.ok true)).1 ≠ idLocation ∧
  (exportGLTF idLocation ['p', 'a', 'r', 't', '.', 'g', 'l', 't', 'f'] none
      (Except.ok ()) (Except.error PyErr.runtimeError)).1 ≠ idLocation ∧
  (exportGLTF idLocation ['p', 'a', 'r', 't', '.', 'g', 'l', 't', 'f'] none
      (Except.ok ()) (Except.ok false)).1 = idLocation ∧
  (exportGLTF idLocation ['p', 'a', 'r', 't', '.', 'g', 'l', 't', 'f'] none
      (Except.ok ()) (Except.ok true)).1 = idLocation := by
  have hne : idLocation.mul gltfAxisFix ≠ idLocation := by
    intro h
    have h22 := congrArg (fun L => L.rot.a22) h
    norm_num [Location.mul, Mat3.mul, idLocation, gltfAxisFix, rotX] at h22
  exact ⟨hne, hne, rfl, rfl⟩

/-- C3 counterexample: with no explicit flag, the extensionless path "gltf"
(its `os.path.splitext` extension is empty, hence not ".gltf") is exported as
ASCII (`binary = false`), where the claim requires binary for a path whose
extension is anything other than ".gltf". -/
theorem gltfEffectiveBinary_extensionless :
  gltfEffectiveBinary none gltfChars = false ∧ (osPathSplitext gltfChars).2 = [] := by
  exact ⟨by decide, by decide⟩

/-- C3 (amended): when the caller passes an explicit binary flag it is used
regardless of the path; with `binary=None` the choice is made on the last
dot-separated segment of the path rather than on its extension — the output
is ASCII exactly when the path ends in ".gltf" or is the bare dotless name
"gltf" (which has no extension), and every other path yields binary. -/
theorem gltfEffectiveBinary_spec :
  ∀ (p : List Char) (b : Bool),
    gltfEffectiveBinary (some b) p = b ∧
    (gltfEffectiveBinary none p = false ↔
      p = gltfChars ∨ ∃ q, p = q ++ '.' :: gltfChars) := by
  intro p b
  refine ⟨rfl, ?_⟩
  constructor
  · intro h
    simp only [gltfEffectiveBinary] at h
    by_cases hC : 0 < (pySplit '.' p).length ∧ lastOr [] (pySplit '.' p) = gltfChars
    · exact eq_or_append_of_lastOr_pySplit '.' p gltfChars hC.2 (by decide)
    · rw [if_neg hC] at h
      cases h
  · intro h
    simp only [gltfEffectiveBinary]
    have hlast : lastOr [] (pySplit '.' p) = gltfChars := by
      rcases h with h | ⟨q, hq⟩
      · rw [h, pySplit_of_not_mem '.' gltfChars (by decide)]
        rfl
      · rw [hq, lastOr_pySplit_append '.' [] q gltfChars,
          pySplit_of_not_mem '.' gltfChars (by decide)]
        rfl
    have hlen : 0 < (pySplit '.' p).length := by
      cases hq : pySplit '.' p with
      | nil => exact absurd hq (pySplit_ne_nil '.' p)
      | cons a as => simp
    rw [if_pos ⟨hlen, hlast⟩]

/-- C4: `exportAssembly` forwards `precision_mode` (default 0) verbatim to
`write.precision.mode` and `write_pcurves` (default True, through Python
truthiness) to `write.surfacecurve.mode`, and every writer call other than
these two `Interface_Static` settings (color, layer and name modes, the
model type, the write) is identical to the call sequence made with no
keyword arguments at all. -/
theorem exportAssembly_forwards_options :
  ∀ (kwargs : StepKwargs) (path : String),
    interfaceIVal (exportAssemblySettings kwargs path) "write.precision.mode" =
      some (kwargs.precision_mode.getD 0) ∧
    interfaceIVal (exportAssemblySettings kwargs path) "write.surfacecurve.mode" =
      some (match kwargs.write_pcurves with
            | some v => if v.truthy then 1 else 0
            | none => 1) ∧
    nonIValCalls (exportAssemblySettings kwargs path) =
      nonIValCalls (exportAssemblySettings {} path) := by
  intro kwargs path
  refine ⟨rfl, rfl, rfl⟩

/-- C8: the shape-level `exportPNG`, called with its declared default
`opts=None`, raises `TypeError` at the membership test before any
tessellation, rendering or file output — the effect trace is empty and the
graphics flags are untouched — so it never reaches the no-options default
branch. -/
theorem png_exportPNG_none_raises :
  ∀ (bbox : BBox) (fileName : String) (flags0 : GraphicsFlags),
    png.exportPNG bbox fileName none flags0 =
      { view := Except.error PyErr.typeError, flags := flags0, effects := [] } := by
  intro bbox fileName flags0
  rfl

/-- C10: `exportCAF` raises `IndexError` for every path whose filename has an
empty `os.path.splitext` extension, before the assembly is converted to a
document or anything is written; for a path with a non-empty extension the
leading dot is stripped and the remainder is registered as the storage
format's extension via `DefineFormat`. -/
theorem exportCAF_extension_spec :
  ∀ (path : List Char) (saveOk : Bool),
    ((osPathSplitext (osPathSplit path).2).2 = [] →
      exportCAF path saveOk = Except.error PyErr.indexError) ∧
    (∀ (c : Char) (rest : List Char),
      (osPathSplitext (osPathSplit path).2).2 = c :: rest →
      c = '.' ∧
      exportCAF path saveOk =
        Except.ok
          ([Effect.toCAF, Effect.defineFormat rest,
            Effect.setRequestedFolder (osPathSplit path).1,
            Effect.setRequestedName (osPathSplitext (osPathSplit path).2).1,
            Effect.saveAs path], saveOk)) := by
  intro path saveOk
  constructor
  · intro h
    unfold exportCAF
    rw [h]
  · intro c rest h
    have hc := osPathSplitext_snd_head _ _ _ h
    subst hc
    refine ⟨rfl, ?_⟩
    unfold exportCAF
    rw [h]
    simp

/-- Witness for C10: the extensionless path "name" raises `IndexError`, and
the path "a.xml" registers the stripped extension "xml". -/
theorem exportCAF_extension_witness :
  exportCAF ['n', 'a', 'm', 'e'] true = Except.error PyErr.indexError ∧
  ('.' = '.' ∧ exportCAF ['a', '.', 'x', 'm', 'l'] true =
    Except.ok
      ([Effect.toCAF, Effect.defineFormat ['x', 'm', 'l'],
        Effect.setRequestedFolder (osPathSplit ['a', '.', 'x', 'm', 'l']).1,
        Effect.setRequestedName
          (osPathSplitext (osPathSplit ['a', '.', 'x', 'm', 'l']).2).1,
        Effect.saveAs ['a', '.', 'x', 'm', 'l']], true)) := by
  constructor
  · exact (exportCAF_extension_spec ['n', 'a', 'm', 'e'] true).1 (by decide)
  · exact (exportCAF_extension_spec ['a', '.', 'x', 'm', 'l'] true).2 '.' ['x', 'm', 'l']
      (by decide)

/-- C7: on every execution of either `exportPNG` variant that renders, both
process-wide backend flags are written with 1 before the render call, every
backend-flag write in any trace writes 1 (so neither variant ever writes a
prior value back), and the final flag state after a rendering call is (1, 1)
whatever it was before the call; the only non-rendering path (shape-level,
`opts=None`) performs no external call at all. -/
theorem exportPNG_global_flags :
  ∀ (leaves : List Leaf) (bbox : BBox) (path : String) (opts : Option PyDict)
    (flags0 : GraphicsFlags) (bbox2 : BBox) (fileName : String) (d : PyDict),
    (assembly.exportPNG leaves bbox path opts flags0).flags = ⟨1, 1⟩ ∧
    flagSetsAreOne (assembly.exportPNG leaves bbox path opts flags0).effects = true ∧
    setsFlagsBeforeRender (assembly.exportPNG leaves bbox path opts flags0).effects ∧
    (png.exportPNG bbox2 fileName (some d) flags0).flags = ⟨1, 1⟩ ∧
    flagSetsAreOne (png.exportPNG bbox2 fileName (some d) flags0).effects = true ∧
    setsFlagsBeforeRender (png.exportPNG bbox2 fileName (some d) flags0).effects ∧
    (png.exportPNG bbox2 fileName none flags0).effects = [] := by
  intro leaves bbox path opts flags0 bbox2 fileName d
  refine ⟨rfl, ?_, ?_, rfl, rfl, ?_, rfl⟩
  · simp only [assembly.exportPNG, flagSetsAreOne, List.all_append, Bool.and_eq_true]
    constructor
    · rw [List.all_eq_true]
      intro e he
      rcases List.mem_map.mp he with ⟨l, -, rfl⟩
      rfl
    · rfl
  · exact ⟨leaves.map fun _ => Effect.tessellate, [],
      [Effect.setSize (assembly.pngOptions opts bbox).width
          (assembly.pngOptions opts bbox).height,
       Effect.setBackground (assembly.pngOptions opts bbox).background_color],
      [Effect.setCamera (assembly.pngOptions opts bbox).camera_position,
       Effect.writePNG path],
      by simp [assembly.exportPNG]⟩
  · cases hO : png.pngOptions (some d) bbox2 with
    | error e => simp [png.pngOptions] at hO
    | ok o =>
      refine ⟨[], [],
        [Effect.tessellate, Effect.setSize o.width o.height,
         Effect.setBackground o.background_color],
        [Effect.setCamera o.camera_position, Effect.writePNG fileName], ?_⟩
      simp [png.exportPNG, hO]

/-- C5: the assembly-level `exportPNG`, with `opts=None` or with any options
dict that omits the `width` and `height` keys, selects a window size of
width 800 and height 600, and in every run the render window is sized with
exactly the selected width and height. -/
theorem assembly_exportPNG_default_size :
  ∀ (leaves : List Leaf) (bbox : BBox) (path : String) (flags0 : GraphicsFlags)
    (d : PyDict),
    ((assembly.exportPNG leaves bbox path none flags0).view.width = OptVal.int 800 ∧
     (assembly.exportPNG leaves bbox path none flags0).view.height = OptVal.int 600) ∧
    (containsKey d "width" = false → containsKey d "height" = false →
      (assembly.exportPNG leaves bbox path (some d) flags0).view.width = OptVal.int 800 ∧
      (assembly.exportPNG leaves bbox path (some d) flags0).view.height = OptVal.int 600) ∧
    (∀ (opts : Option PyDict),
      Effect.setSize (assembly.exportPNG leaves bbox path opts flags0).view.width
          ((assembly.exportPNG leaves bbox path opts flags0).view.height) ∈
        (assembly.exportPNG leaves bbox path opts flags0).effects) := by
  intro leaves bbox path flags0 d
  refine ⟨⟨rfl, rfl⟩, ?_, ?_⟩
  · intro hw hh
    have hview : (assembly.exportPNG leaves bbox path (some d) flags0).view
        = assembly.pngOptions (some d) bbox := rfl
    rw [hview]
    by_cases hE : d.isEmpty
    · exact ⟨by simp [assembly.pngOptions, hE, assembly.pngDefaults],
        by simp [assembly.pngOptions, hE, assembly.pngDefaults]⟩
    · rw [Bool.not_eq_true] at hE
      exact ⟨by simp [assembly.pngOptions, hE, hw],
        by simp [assembly.pngOptions, hE, hh]⟩
  · intro opts
    simp [assembly.exportPNG]

/-- Witness for C5: a non-empty options dict without `width`/`height` keys
yields the 800 by 600 defaults. -/
theorem assembly_exportPNG_default_size_witness :
  (assembly.exportPNG [] ⟨0, 1, 0, 1, 0, 1⟩ "out.png"
      (some [("focal_point", OptVal.pos 0 0 0)]) ⟨0, 0⟩).view.width = OptVal.int 800 ∧
  (assembly.exportPNG [] ⟨0, 1, 0, 1, 0, 1⟩ "out.png"
      (some [("focal_point", OptVal.pos 0 0 0)]) ⟨0, 0⟩).view.height = OptVal.int 600 :=
  (assembly_exportPNG_default_size [] ⟨0, 1, 0, 1, 0, 1⟩ "out.png" ⟨0, 0⟩
      [("focal_point", OptVal.pos 0 0 0)]).2.1 (by decide) (by decide)

/-- C6: in the assembly-level `exportPNG` the face actors are exactly one per
leaf; a leaf with a color gets that color's RGB components and its alpha as
opacity, and a leaf without a color gets the fixed dark-gray RGBA tuple
(0.1, 0.1, 0.1, 1.0). -/
theorem assembly_faceActor_colors :
  ∀ (l : Leaf) (c : Color) (leaves : List Leaf) (bbox : BBox) (path : String)
    (opts : Option PyDict) (flags0 : GraphicsFlags),
    (assembly.exportPNG leaves bbox path opts flags0).faceActors =
      leaves.map faceActorOf ∧
    (l.col = some c →
      (faceActorOf l).color = [c.r, c.g, c.b] ∧ (faceActorOf l).opacity = c.a) ∧
    (l.col = none →
      (faceActorOf l).color = [1/10, 1/10, 1/10] ∧ (faceActorOf l).opacity = 1) := by
  intro l c leaves bbox path opts flags0
  refine ⟨rfl, ?_, ?_⟩
  · intro h
    exact ⟨by simp [faceActorOf, h, Color.toTuple],
      by simp [faceActorOf, h, Color.toTuple]⟩
  · intro h
    exact ⟨by simp [faceActorOf, h], by simp [faceActorOf, h]⟩

/-- Witness for C6: a red leaf yields a red face actor with opacity 1, and a
colorless leaf yields the dark-gray defaults. -/
theorem assembly_faceActor_colors_witness :
  ((faceActorOf ⟨(0, 0, 0), (0, 0, 0), some ⟨1, 0, 0, 1⟩⟩).color = [1, 0, 0] ∧
   (faceActorOf ⟨(0, 0, 0), (0, 0, 0), some ⟨1, 0, 0, 1⟩⟩).opacity = 1) ∧
  ((faceActorOf ⟨(0, 0, 0), (0, 0, 0), none⟩).color = [1/10, 1/10, 1/10] ∧
   (faceActorOf ⟨(0, 0, 0), (0, 0, 0), none⟩).opacity = 1) := by
  constructor
  · exact (assembly_faceActor_colors ⟨(0, 0, 0), (0, 0, 0), some ⟨1, 0, 0, 1⟩⟩
      ⟨1, 0, 0, 1⟩ [] ⟨0, 1, 0, 1, 0, 1⟩ "o.png" none ⟨0, 0⟩).2.1 rfl
  · exact (assembly_faceActor_colors ⟨(0, 0, 0), (0, 0, 0), none⟩
      ⟨1, 0, 0, 1⟩ [] ⟨0, 1, 0, 1, 0, 1⟩ "o.png" none ⟨0, 0⟩).2.2 rfl

/-- C9: in the assembly-level `exportPNG` the missing-key defaults depend on
the truthiness of `opts`: any non-empty dict lacking the keys yields parallel
projection True and background (0.5, 0.5, 0.5), while `opts=None` and the
empty dict yield parallel projection False and background (0.8, 0.8, 0.8). -/
theorem assembly_pngOptions_truthiness :
  ∀ (bbox : BBox) (d : PyDict),
    (d ≠ [] → containsKey d "parallel_projection" = false →
      containsKey d "background_color" = false →
      (assembly.pngOptions (some d) bbox).parallel_projection = OptVal.bool true ∧
      (assembly.pngOptions (some d) bbox).background_color =
        OptVal.rgb (1/2) (1/2) (1/2)) ∧
    ((assembly.pngOptions none bbox).parallel_projection = OptVal.bool false ∧
     (assembly.pngOptions none bbox).background_color = OptVal.rgb (4/5) (4/5) (4/5)) ∧
    ((assembly.pngOptions (some []) bbox).parallel_projection = OptVal.bool false ∧
     (assembly.pngOptions (some []) bbox).background_color =
       OptVal.rgb (4/5) (4/5) (4/5)) := by
  intro bbox d
  refine ⟨?_, ⟨rfl, rfl⟩, ⟨rfl, rfl⟩⟩
  intro hne hp hb
  have hE : d.isEmpty = false := by
    cases d with
    | nil => exact absurd rfl hne
    | cons a as => rfl
  exact ⟨by simp [assembly.pngOptions, hE, hp], by simp [assembly.pngOptions, hE, hb]⟩

/-- Witness for C9: a non-empty dict without the two keys takes the truthy
defaults. -/
theorem assembly_pngOptions_truthiness_witness :
  (assembly.pngOptions (some [("focal_point", OptVal.pos 0 0 0)])
      ⟨0, 1, 0, 1, 0, 1⟩).parallel_projection = OptVal.bool true ∧
  (assembly.pngOptions (some [("focal_point", OptVal.pos 0 0 0)])
      ⟨0, 1, 0, 1, 0, 1⟩).background_color = OptVal.rgb (1/2) (1/2) (1/2) :=
  (assembly_pngOptions_truthiness ⟨0, 1, 0, 1, 0, 1⟩
      [("focal_point", OptVal.pos 0 0 0)]).1 (by decide) (by decide) (by decide)

/-- C2 counterexample: the claim says the shape-level variant chooses parallel
projection False and background (0.5, 0.5, 0.5) also with no options at all,
but with no options (`opts=None`, the declared default) the shape-level option
selection raises a TypeError before choosing anything. -/
theorem png_pngOptions_none_counterexample :
  png.pngOptions none ⟨0, 1, 0, 1, 0, 1⟩ = Except.error PyErr.typeError := rfl

/-- C2 (amended): the two `exportPNG` variants are not equivalent in their
option defaults — for every non-empty options dict lacking the keys, the
assembly-level variant chooses parallel projection True with background
(0.5, 0.5, 0.5) while the shape-level one chooses False with (0.5, 0.5, 0.5),
so the chosen flags differ; with no options at all the assembly-level variant
chooses False with (0.8, 0.8, 0.8) while the shape-level one raises a
TypeError (an empty dict gives it False with (0.5, 0.5, 0.5)). -/
theorem exportPNG_variant_defaults_differ :
  ∀ (bbox : BBox) (d : PyDict),
    (d ≠ [] → containsKey d "parallel_projection" = false →
      containsKey d "background_color" = false →
      (assembly.pngOptions (some d) bbox).parallel_projection = OptVal.bool true ∧
      (assembly.pngOptions (some d) bbox).background_color =
        OptVal.rgb (1/2) (1/2) (1/2) ∧
      (png.pngOptions (some d) bbox).map (fun o => o.parallel_projection) =
        Except.ok (OptVal.bool false) ∧
      (png.pngOptions (some d) bbox).map (fun o => o.background_color) =
        Except.ok (OptVal.rgb (1/2) (1/2) (1/2)) ∧
      (png.pngOptions (some d) bbox).map (fun o => o.parallel_projection) ≠
        Except.ok ((assembly.pngOptions (some d) bbox).parallel_projection)) ∧
    ((assembly.pngOptions none bbox).parallel_projection = OptVal.bool false ∧
     (assembly.pngOptions none bbox).background_color = OptVal.rgb (4/5) (4/5) (4/5) ∧
     png.pngOptions none bbox = Except.error PyErr.typeError) ∧
    ((png.pngOptions (some []) bbox).map (fun o => o.parallel_projection) =
       Except.ok (OptVal.bool false) ∧
     (png.pngOptions (some []) bbox).map (fun o => o.background_color) =
       Except.ok (OptVal.rgb (1/2) (1/2) (1/2))) := by
  intro bbox d
  refine ⟨?_, ⟨rfl, rfl, rfl⟩, ⟨rfl, rfl⟩⟩
  intro hne hp hb
  have hE : d.isEmpty = false := by
    cases d with
    | nil => exact absurd rfl hne
    | cons a as => rfl
  refine ⟨by simp [assembly.pngOptions, hE, hp],
    by simp [assembly.pngOptions, hE, hb],
    by simp [png.pngOptions, hE, hp, Except.map],
    by simp [png.pngOptions, hE, hb, Except.map],
    ?_⟩
  simp [png.pngOptions, assembly.pngOptions, hE, hp, Except.map]

/-- Witness for C2: a dict holding only a focal point makes the two variants
pick different parallel-projection flags. -/
theorem exportPNG_variant_defaults_differ_witness :
  (assembly.pngOptions (some [("focal_point", OptVal.pos 0 0 0)])
      ⟨0, 1, 0, 1, 0, 1⟩).parallel_projection = OptVal.bool true ∧
  (png.pngOptions (some [("focal_point", OptVal.pos 0 0 0)])
      ⟨0, 1, 0, 1, 0, 1⟩).map (fun o => o.parallel_projection) =
    Except.ok (OptVal.bool false) := by
  have h := (exportPNG_variant_defaults_differ ⟨0, 1, 0, 1, 0, 1⟩
      [("focal_point", OptVal.pos 0 0 0)]).1 (by decide) (by decide) (by decide)
  exact ⟨h.1, h.2.2.1⟩
